import Mathlib

/-!
Shallow embedding of `src/copy_script.py`: an Azure-blob copy pipeline that
snapshots a source account into a `Hierarchy` (container name → blob name →
`BlobInfo`), downloads blob contents to a local staging directory, checkpoints
the hierarchy with `pickle`, and uploads staged files to a destination account.

External collaborators (the Azure SDK clients, the local filesystem, `pickle`)
are modelled explicitly: store interactions are driven by oracles describing
the outcome of each remote call, and `pickle` is modelled as a structural
serializer into an abstract value type.  Python truthiness on optional strings
(`bool(self.data_local_path)`) and `os.path.join` are modelled faithfully.
-/

set_option autoImplicit false

namespace CopyScript

/-- Python truthiness of an optional string: `None` and the empty string are
falsy. -/
def truthyStr : Option String → Bool
  | none => false
  | some s => decide (s ≠ "")

/-- Model of `os.path.join a b` for one POSIX separator: an absolute `b` (first
character the separator) replaces `a`; an empty `a` leaves `b`; otherwise a
single `/` joins them unless `a` already ends with one. -/
def osJoin (a b : String) : String :=
  if b.data.head? = some '/' then b
  else if a = "" then b
  else if a.data.getLast? = some '/' then a ++ b
  else a ++ "/" ++ b

/-- The content-settings carried by a blob (passthrough headers); only the
fields the script reads are modelled.  `content_md5` is the optional content
hash used by the enumerator as an existence signal for zero-length blobs. -/
structure ContentSettings where
  content_type : Option String
  content_md5 : Option String
  deriving Repr, DecidableEq

/-- Model of `azure.storage.blob.BlobProperties`, restricted to the fields read by the
script: name, size, deleted flag, blob type, metadata and content settings. -/
structure BlobProperties where
  name : String
  size : Nat
  deleted : Bool
  blob_type : String
  metadata : List (String × String)
  content_settings : ContentSettings
  deriving Repr, DecidableEq

/-- The `BlobInfo` dataclass: source properties plus the two mutable transfer
status fields. -/
structure BlobInfo where
  properties : BlobProperties
  data_local_path : Option String := none
  uploaded : Bool := false
  deriving Repr, DecidableEq

/-- Property `BlobInfo.name`. -/
def BlobInfo.name (b : BlobInfo) : String := b.properties.name

/-- Property `BlobInfo.size`. -/
def BlobInfo.size (b : BlobInfo) : Nat := b.properties.size

/-- Method `BlobInfo.is_downloaded`, which returns `bool(self.data_local_path)`. -/
def BlobInfo.is_downloaded (b : BlobInfo) : Bool := truthyStr b.data_local_path

/-- Method `BlobInfo.is_uploaded`, which returns `self.uploaded`. -/
def BlobInfo.is_uploaded (b : BlobInfo) : Bool := b.uploaded

/-- The constant `FILE_WITH_HIERARCHY_NAME`, whose value is `hierarchy.pickle`. -/
def FILE_WITH_HIERARCHY_NAME : String := "hierarchy.pickle"

/-- A container's snapshot: blob name → `BlobInfo`, as an insertion-ordered
association list (Python dicts preserve insertion order). -/
abbrev ContainerSnapshot := List (String × BlobInfo)

/-- The hierarchy: container name → `ContainerSnapshot`, insertion-ordered. -/
abbrev Hierarchy := List (String × ContainerSnapshot)

/-- The filter of `get_hierarchy` line 103:
`not blob.deleted and (blob.size or blob.content_settings.content_md5 is not None)`
(`blob.size` is truthy iff it is nonzero). -/
def keepBlob (p : BlobProperties) : Bool :=
  !p.deleted && (decide (p.size ≠ 0) || p.content_settings.content_md5.isSome)

/-- The inner loop of `get_hierarchy` for one container: every kept blob is
inserted under its name with fresh (un-downloaded, un-uploaded) status. -/
def snapshotOf (blobs : List BlobProperties) : ContainerSnapshot :=
  (blobs.filter keepBlob).map fun p => (p.name, { properties := p : BlobInfo })

/-- Function `get_hierarchy`, as a function of the source account's listing (container
name paired with its blob listing, in listing order).  Every listed container
appears as a key of the result, even when all of its blobs are filtered out:
the summary-logging line evaluates `blobs_by_container[container.name]` on a
`defaultdict`, which inserts the (possibly empty) inner dict. -/
def get_hierarchy (listing : List (String × List BlobProperties)) : Hierarchy :=
  listing.map fun ce => (ce.1, snapshotOf ce.2)

/-! ### Checkpoint serialization (`pickle`)

`download_blobs` persists the hierarchy with `pickle.dump` and
`open_hierarchy_local` restores it with `pickle.load`.  `pickle` is modelled
as a structural serializer into the abstract value type `PValue`: each Python
object reachable from the hierarchy is encoded by value, and decoding is
partial (a file holding anything else fails to load). -/

/-- Abstract pickled values: `None`, booleans, numbers, strings, pairs and
lists. -/
inductive PValue where
  | pnone : PValue
  | pbool : Bool → PValue
  | pnat : Nat → PValue
  | pstr : String → PValue
  | ppair : PValue → PValue → PValue
  | plist : List PValue → PValue

/-- Encode an optional string. -/
def encOptStr : Option String → PValue
  | none => .pnone
  | some s => .pstr s

/-- Decode an optional string. -/
def decOptStr : PValue → Option (Option String)
  | .pnone => some none
  | .pstr s => some (some s)
  | _ => none

/-- Encode a metadata mapping, entry by entry in order. -/
def encMetaList : List (String × String) → List PValue
  | [] => []
  | (k, v) :: rest => .ppair (.pstr k) (.pstr v) :: encMetaList rest

/-- Decode a metadata mapping. -/
def decMetaList : List PValue → Option (List (String × String))
  | [] => some []
  | .ppair (.pstr k) (.pstr v) :: rest =>
    match decMetaList rest with
    | some t => some ((k, v) :: t)
    | none => none
  | _ => none

/-- Encode a `ContentSettings`. -/
def encCS (cs : ContentSettings) : PValue :=
  .ppair (encOptStr cs.content_type) (encOptStr cs.content_md5)

/-- Decode a `ContentSettings`. -/
def decCS : PValue → Option ContentSettings
  | .ppair t m =>
    match decOptStr t, decOptStr m with
    | some ct, some md => some ⟨ct, md⟩
    | _, _ => none
  | _ => none

/-- Encode a `BlobProperties`. -/
def encProps (p : BlobProperties) : PValue :=
  .plist [.pstr p.name, .pnat p.size, .pbool p.deleted, .pstr p.blob_type,
    .plist (encMetaList p.metadata), encCS p.content_settings]

/-- Decode a `BlobProperties`. -/
def decProps : PValue → Option BlobProperties
  | .plist [.pstr n, .pnat s, .pbool d, .pstr bt, .plist m, cs] =>
    match decMetaList m, decCS cs with
    | some md, some c => some ⟨n, s, d, bt, md, c⟩
    | _, _ => none
  | _ => none

/-- Encode a `BlobInfo` (properties plus both status fields). -/
def encBlobInfo (b : BlobInfo) : PValue :=
  .plist [encProps b.properties, encOptStr b.data_local_path, .pbool b.uploaded]

/-- Decode a `BlobInfo`. -/
def decBlobInfo : PValue → Option BlobInfo
  | .plist [pv, lp, .pbool u] =>
    match decProps pv, decOptStr lp with
    | some p, some path => some ⟨p, path, u⟩
    | _, _ => none
  | _ => none

/-- Encode a container snapshot, entry by entry in insertion order. -/
def encSnap : ContainerSnapshot → List PValue
  | [] => []
  | (n, b) :: rest => .ppair (.pstr n) (encBlobInfo b) :: encSnap rest

/-- Decode a container snapshot. -/
def decSnap : List PValue → Option ContainerSnapshot
  | [] => some []
  | .ppair (.pstr n) bv :: rest =>
    match decBlobInfo bv, decSnap rest with
    | some b, some r => some ((n, b) :: r)
    | _, _ => none
  | _ => none

/-- Encode the hierarchy's container entries, in insertion order. -/
def encHierEntries : Hierarchy → List PValue
  | [] => []
  | (c, snap) :: rest => .ppair (.pstr c) (.plist (encSnap snap)) :: encHierEntries rest

/-- Decode the hierarchy's container entries. -/
def decHierEntries : List PValue → Option Hierarchy
  | [] => some []
  | .ppair (.pstr c) (.plist sv) :: rest =>
    match decSnap sv, decHierEntries rest with
    | some s, some r => some ((c, s) :: r)
    | _, _ => none
  | _ => none

/-- Model of `pickle.dump(blobs_by_container, hierarchy_file)`: the checkpoint bytes
written to `stagingRoot/hierarchy.pickle`. -/
def pickle_dump (h : Hierarchy) : PValue := .plist (encHierEntries h)

/-- Model of `pickle.load(hierarchy_file)`: partial inverse of `pickle_dump`. -/
def pickle_load : PValue → Option Hierarchy
  | .plist entries => decHierEntries entries
  | _ => none

/-- Function `open_hierarchy_local`, as a function of the checkpoint file's content. -/
def open_hierarchy_local (saved : PValue) : Option Hierarchy := pickle_load saved

/-! ### Download pass

`download_blobs` walks the hierarchy container by container, blob by blob,
downloading each blob whose `is_downloaded()` is false; `BlobInfo.download`
streams the blob to `os.path.join(base_path, self.name)` and sets
`data_local_path` only after the stream has been fully written.  The whole
loop sits in a `try ... except (Exception, KeyboardInterrupt): raise`
followed by a `finally:` block that pickles the hierarchy, so the checkpoint
is written on every exit path and any pending error is then re-raised.

The source store is modelled by an oracle giving, per (container, blob name),
whether the streaming download completes or raises. -/

/-- A raised Python error: an ordinary `Exception` or a `KeyboardInterrupt`
(external cancellation). -/
inductive PyExc where
  | exc : String → PyExc
  | keyboardInterrupt : PyExc
  deriving Repr, DecidableEq

/-- Outcome of one streaming download attempt. -/
inductive DlOutcome where
  | ok : DlOutcome
  | err : PyExc → DlOutcome
  deriving Repr, DecidableEq

/-- A source-store oracle: outcome of downloading a given blob name from a
given container. -/
abbrev DlOracle := String → String → DlOutcome

/-- Result of one container's download loop: the (partially) updated
snapshot, the download calls issued (with their outcomes), and the pending
error if the loop was aborted. -/
structure SnapPass where
  snap : ContainerSnapshot
  calls : List (String × String × DlOutcome)
  exc : Option PyExc
  deriving Repr, DecidableEq

/-- The inner loop of `download_blobs` over one container's blobs: blobs with
a truthy `data_local_path` are skipped; otherwise `blob.download` is called,
which on success sets `data_local_path` to the staged file path and on
failure leaves the record unchanged and aborts the pass. -/
def downloadSnap (oracle : DlOracle) (dir c : String) : ContainerSnapshot → SnapPass
  | [] => ⟨[], [], none⟩
  | (n, b) :: rest =>
    if b.is_downloaded then
      let r := downloadSnap oracle dir c rest
      ⟨(n, b) :: r.snap, r.calls, r.exc⟩
    else
      match oracle c b.name with
      | .ok =>
        let b' := { b with data_local_path := some (osJoin (osJoin dir c) b.name) }
        let r := downloadSnap oracle dir c rest
        ⟨(n, b') :: r.snap, (c, b.name, .ok) :: r.calls, r.exc⟩
      | .err e => ⟨(n, b) :: rest, [(c, b.name, .err e)], some e⟩

/-- Result of the download loop over all containers. -/
structure HierPass where
  hier : Hierarchy
  calls : List (String × String × DlOutcome)
  exc : Option PyExc
  deriving Repr, DecidableEq

/-- The outer loop of `download_blobs`: containers in order, aborting at the
first error and leaving the remaining containers untouched. -/
def downloadHier (oracle : DlOracle) (dir : String) : Hierarchy → HierPass
  | [] => ⟨[], [], none⟩
  | (c, snap) :: rest =>
    let r := downloadSnap oracle dir c snap
    match r.exc with
    | some e => ⟨(c, r.snap) :: rest, r.calls, some e⟩
    | none =>
      let r2 := downloadHier oracle dir rest
      ⟨(c, r.snap) :: r2.hier, r.calls ++ r2.calls, r2.exc⟩

/-- Observable result of `download_blobs`: the mutated hierarchy, the
checkpoint file path and content written by the `finally:` block, the
download calls issued, and the re-raised error (if any). -/
structure DownloadResult where
  hierarchy : Hierarchy
  saved_path : String
  saved : PValue
  calls : List (String × String × DlOutcome)
  outcome : Option PyExc

/-- Function `download_blobs`: run the pass, then (in the finally-block) pickle the hierarchy
as mutated so far to `os.path.join(local_storage_dir, FILE_WITH_HIERARCHY_NAME)`,
re-raising any pending error afterwards. -/
def download_blobs (oracle : DlOracle) (local_storage_dir : String)
    (blobs_by_container : Hierarchy) : DownloadResult :=
  let r := downloadHier oracle local_storage_dir blobs_by_container
  { hierarchy := r.hier
    saved_path := osJoin local_storage_dir FILE_WITH_HIERARCHY_NAME
    saved := pickle_dump r.hier
    calls := r.calls
    outcome := r.exc }

/-! ### Upload pass

`upload_blobs` walks the hierarchy and uploads every blob with a truthy
`data_local_path` and a false `uploaded` flag.  `BlobInfo.upload` passes the
staged file together with `blob_type`, `length=self.properties.size or None`
(so `None` when the size is `0`), `metadata` and `content_settings`, and sets
`uploaded = True` afterwards.  A `ResourceNotFoundError` with error code
a `ContainerNotFound` error code is caught when `create_containers` is true: the
container is created with default settings and the single upload is retried
once, outside any handler; every other failure is re-raised. -/

/-- An error raised by the destination store: `ResourceNotFoundError` with
its optional `error_code`, or any other exception. -/
inductive AzureError where
  | resourceNotFound : Option String → AzureError
  | other : String → AzureError
  deriving Repr, DecidableEq

/-- Outcome of one upload call against the destination store. -/
inductive UpOutcome where
  | ok : UpOutcome
  | err : AzureError → UpOutcome
  deriving Repr, DecidableEq

/-- The destination store: the set of existing containers, and an oracle for
the outcome of an upload call (container, blob name, attempt index) when the
container exists. -/
structure DstStore where
  containers : List String
  uploadResult : String → String → Nat → UpOutcome

/-- One upload call against the store: a missing container raises
`ResourceNotFoundError` with the `ContainerNotFound` error code; otherwise the
oracle decides. -/
def DstStore.tryUpload (s : DstStore) (c n : String) (attempt : Nat) : UpOutcome :=
  if c ∈ s.containers then s.uploadResult c n attempt
  else .err (.resourceNotFound (some "ContainerNotFound"))

/-- Model of `container_client.create_container()`: the container now exists. -/
def DstStore.create_container (s : DstStore) (c : String) : DstStore :=
  { s with containers := c :: s.containers }

/-- The test `isinstance(exc, ResourceNotFoundError)` together with
`exc.error_code == "ContainerNotFound"` from the except clause. -/
def isContainerNotFound : AzureError → Bool
  | .resourceNotFound (some code) => decide (code = "ContainerNotFound")
  | _ => false

/-- The argument record of one `container_client.upload_blob(...)` call as
issued by `BlobInfo.upload`. -/
structure UploadCall where
  name : String
  data_path : String
  blob_type : String
  length : Option Nat
  metadata : List (String × String)
  content_settings : ContentSettings
  deriving Repr, DecidableEq

/-- The `upload_blob` argument record built by `BlobInfo.upload` for a blob
staged under `base_path`: note `length = self.properties.size or None`, which
passes `None` whenever the size is `0`. -/
def mkUploadCall (base_path : String) (b : BlobInfo) : UploadCall :=
  { name := b.name
    data_path := osJoin base_path b.name
    blob_type := b.properties.blob_type
    length := if b.properties.size = 0 then none else some b.properties.size
    metadata := b.properties.metadata
    content_settings := b.properties.content_settings }

/-- A call observable against the destination store: an `upload_blob` call in
a given container, or a `create_container` call. -/
inductive UpEvent where
  | uploadEvt : String → UploadCall → UpEvent
  | createEvt : String → UpEvent
  deriving Repr, DecidableEq

/-- Result of the per-blob upload body (source lines 172-180). -/
structure UpStep where
  store : DstStore
  events : List UpEvent
  blob : BlobInfo
  exc : Option AzureError

/-- The per-blob `try/except ResourceNotFoundError` body: attempt the upload;
on container-not-found with `create_containers` set, create the container and
retry exactly once (a failed retry propagates); any other failure propagates
unchanged and creates nothing. -/
def uploadBlobStep (create_containers : Bool) (store : DstStore) (base_path c : String)
    (b : BlobInfo) : UpStep :=
  let call := mkUploadCall base_path b
  match store.tryUpload c b.name 0 with
  | .ok => ⟨store, [.uploadEvt c call], { b with uploaded := true }, none⟩
  | .err e =>
    if isContainerNotFound e && create_containers then
      let store' := store.create_container c
      match store'.tryUpload c b.name 1 with
      | .ok => ⟨store', [.uploadEvt c call, .createEvt c, .uploadEvt c call],
          { b with uploaded := true }, none⟩
      | .err e2 => ⟨store', [.uploadEvt c call, .createEvt c, .uploadEvt c call], b, some e2⟩
    else ⟨store, [.uploadEvt c call], b, some e⟩

/-- Result of one container's upload loop. -/
structure UpSnapRes where
  store : DstStore
  snap : ContainerSnapshot
  events : List UpEvent
  exc : Option AzureError

/-- The inner loop of `upload_blobs` over one container's blobs: only blobs
with `is_downloaded() and not is_uploaded()` are attempted; an uncaught error
aborts the loop, leaving the remaining records untouched. -/
def uploadSnap (create_containers : Bool) (base_path c : String) :
    DstStore → ContainerSnapshot → UpSnapRes
  | store, [] => ⟨store, [], [], none⟩
  | store, (n, b) :: rest =>
    if b.is_downloaded && !b.is_uploaded then
      let s := uploadBlobStep create_containers store base_path c b
      match s.exc with
      | some e => ⟨s.store, (n, s.blob) :: rest, s.events, some e⟩
      | none =>
        let r := uploadSnap create_containers base_path c s.store rest
        ⟨r.store, (n, s.blob) :: r.snap, s.events ++ r.events, r.exc⟩
    else
      let r := uploadSnap create_containers base_path c store rest
      ⟨r.store, (n, b) :: r.snap, r.events, r.exc⟩

/-- Result of the upload loop over all containers. -/
structure UpHierRes where
  store : DstStore
  hier : Hierarchy
  events : List UpEvent
  exc : Option AzureError

/-- The outer loop of `upload_blobs`: containers in order, each staged under
`os.path.join(local_storage_dir, container)`, aborting at the first
propagated error. -/
def uploadHier (create_containers : Bool) (dir : String) :
    DstStore → Hierarchy → UpHierRes
  | store, [] => ⟨store, [], [], none⟩
  | store, (c, snap) :: rest =>
    let r := uploadSnap create_containers (osJoin dir c) c store snap
    match r.exc with
    | some e => ⟨r.store, (c, r.snap) :: rest, r.events, some e⟩
    | none =>
      let r2 := uploadHier create_containers dir r.store rest
      ⟨r2.store, (c, r.snap) :: r2.hier, r.events ++ r2.events, r2.exc⟩

/-- Function `upload_blobs` against a destination store. -/
def upload_blobs (store : DstStore) (blobs_by_container : Hierarchy)
    (local_storage_dir : String) (create_containers : Bool) : UpHierRes :=
  uploadHier create_containers local_storage_dir store blobs_by_container

/-! ### Status-field relations

Relations between a record (entry, snapshot, hierarchy) and its image after a
pass, used to state monotonicity of the status fields and the frame
conditions of the two passes. -/

/-- Status monotonicity on one record: a set (`some`) staging path stays set,
and a true `uploaded` flag stays true. -/
def StatusMono (b b' : BlobInfo) : Prop :=
  (b.data_local_path.isSome = true → b'.data_local_path.isSome = true) ∧
    (b.uploaded = true → b'.uploaded = true)

/-- Status monotonicity on one snapshot entry: same key, monotone status. -/
def EntryMono (u v : String × BlobInfo) : Prop :=
  v.1 = u.1 ∧ StatusMono u.2 v.2

/-- Pointwise status monotonicity of a whole snapshot. -/
def SnapMono : ContainerSnapshot → ContainerSnapshot → Prop :=
  List.Forall₂ EntryMono

/-- Pointwise status monotonicity of a whole hierarchy, container keys kept. -/
def HierMono : Hierarchy → Hierarchy → Prop :=
  List.Forall₂ fun x y => y.1 = x.1 ∧ SnapMono x.2 y.2

/-- Frame of a download pass on one entry of container `c`: key, source
properties and `uploaded` flag untouched; `data_local_path` either untouched
or (for a record the pass considered un-downloaded) set to the staged path. -/
def DlFrameEntry (dir c : String) (u v : String × BlobInfo) : Prop :=
  v.1 = u.1 ∧ v.2.properties = u.2.properties ∧ v.2.uploaded = u.2.uploaded ∧
    (v.2.data_local_path = u.2.data_local_path ∨
      (u.2.is_downloaded = false ∧
        v.2.data_local_path = some (osJoin (osJoin dir c) u.2.properties.name)))

/-- Frame of a download pass on a whole hierarchy. -/
def DlFrameHier (dir : String) : Hierarchy → Hierarchy → Prop :=
  List.Forall₂ fun x y => y.1 = x.1 ∧ List.Forall₂ (DlFrameEntry dir x.1) x.2 y.2

/-- Frame of an upload pass on one entry: key, source properties and
`data_local_path` untouched; `uploaded` either untouched or set to true on a
record the pass attempted. -/
def UpFrameEntry (u v : String × BlobInfo) : Prop :=
  v.1 = u.1 ∧ v.2.properties = u.2.properties ∧
    v.2.data_local_path = u.2.data_local_path ∧
    (v.2.uploaded = u.2.uploaded ∨
      (u.2.is_downloaded = true ∧ u.2.uploaded = false ∧ v.2.uploaded = true))

/-- Frame of an upload pass on a whole hierarchy. -/
def UpFrameHier : Hierarchy → Hierarchy → Prop :=
  List.Forall₂ fun x y => y.1 = x.1 ∧ List.Forall₂ UpFrameEntry x.2 y.2

/-- Relation between an input entry and its image after an error-free upload
pass: same key, and a record the pass deemed eligible (downloaded, not yet
uploaded) now has its `uploaded` flag set. -/
def UpMarkedEntry (u v : String × BlobInfo) : Prop :=
  v.1 = u.1 ∧ ((u.2.is_downloaded = true ∧ u.2.is_uploaded = false) → v.2.uploaded = true)

/-- `UpMarkedEntry`, lifted to whole hierarchies. -/
def UpMarkedHier : Hierarchy → Hierarchy → Prop :=
  List.Forall₂ fun x y => y.1 = x.1 ∧ List.Forall₂ UpMarkedEntry x.2 y.2

/-! ### Round-trip of the checkpoint serializer -/

theorem decOptStr_encOptStr (o : Option String) : decOptStr (encOptStr o) = some o := by
  cases o <;> rfl

theorem decMetaList_encMetaList (m : List (String × String)) :
    decMetaList (encMetaList m) = some m := by
  induction m with
  | nil => rfl
  | cons kv rest ih => cases kv; simp [encMetaList, decMetaList, ih]

theorem decCS_encCS (cs : ContentSettings) : decCS (encCS cs) = some cs := by
  cases cs; simp [encCS, decCS, decOptStr_encOptStr]

theorem decProps_encProps (p : BlobProperties) : decProps (encProps p) = some p := by
  cases p; simp [encProps, decProps, decMetaList_encMetaList, decCS_encCS]

theorem decBlobInfo_encBlobInfo (b : BlobInfo) : decBlobInfo (encBlobInfo b) = some b := by
  cases b; simp [encBlobInfo, decBlobInfo, decProps_encProps, decOptStr_encOptStr]

theorem decSnap_encSnap (s : ContainerSnapshot) : decSnap (encSnap s) = some s := by
  induction s with
  | nil => rfl
  | cons e rest ih => cases e; simp [encSnap, decSnap, decBlobInfo_encBlobInfo, ih]

theorem decHierEntries_encHierEntries (h : Hierarchy) :
    decHierEntries (encHierEntries h) = some h := by
  induction h with
  | nil => rfl
  | cons e rest ih => cases e; simp [encHierEntries, decHierEntries, decSnap_encSnap, ih]

theorem pickle_load_pickle_dump (h : Hierarchy) : pickle_load (pickle_dump h) = some h := by
  simp [pickle_dump, pickle_load, decHierEntries_encHierEntries]

/-! ### Path shape facts -/

theorem append_ne_empty_left (a b : String) (h : a ≠ "") : a ++ b ≠ "" := by
  intro hab
  apply h
  have hd : a.data ++ b.data = [] := by
    have := congrArg String.data hab
    simpa using this
  have : a.data = [] := (List.append_eq_nil.mp hd).1
  cases a
  simp_all

theorem head_slash_ne_empty (b : String) (h : b.data.head? = some '/') : b ≠ "" := by
  intro hb
  rw [hb] at h
  exact absurd h (by decide)

/-- `os.path.join` of a nonempty directory with anything is nonempty. -/
theorem osJoin_ne_empty (a b : String) (ha : a ≠ "") : osJoin a b ≠ "" := by
  unfold osJoin
  split
  · exact head_slash_ne_empty b (by assumption)
  · split
    · exact append_ne_empty_left a b ha
    · exact append_ne_empty_left (a ++ "/") b (append_ne_empty_left a "/" ha)

theorem truthyStr_some_ne (s : String) (h : s ≠ "") : truthyStr (some s) = true := by
  simp [truthyStr, h]

/-- A record whose staging path was just set by a download under a nonempty
staging root is seen as downloaded. -/
theorem is_downloaded_of_osJoin (dir c n : String) (p : BlobProperties) (u : Bool)
    (hdir : dir ≠ "") :
    BlobInfo.is_downloaded ⟨p, some (osJoin (osJoin dir c) n), u⟩ = true := by
  exact truthyStr_some_ne _ (osJoin_ne_empty _ _ (osJoin_ne_empty _ _ hdir))

/-! ### Download-pass lemmas -/

theorem dlFrameEntry_refl (dir c : String) (u : String × BlobInfo) : DlFrameEntry dir c u u :=
  ⟨rfl, rfl, rfl, Or.inl rfl⟩

/-- A download pass over one container only sets staging paths of records it
considered un-downloaded; keys, properties and upload flags are untouched. -/
theorem downloadSnap_frame (oracle : DlOracle) (dir c : String) (snap : ContainerSnapshot) :
    List.Forall₂ (DlFrameEntry dir c) snap (downloadSnap oracle dir c snap).snap := by
  induction snap with
  | nil => exact List.Forall₂.nil
  | cons e rest ih =>
    obtain ⟨n, b⟩ := e
    by_cases hd : b.is_downloaded = true
    · simp only [downloadSnap, hd, if_true]
      exact List.Forall₂.cons (dlFrameEntry_refl dir c (n, b)) ih
    · rw [Bool.not_eq_true] at hd
      simp only [downloadSnap, hd, Bool.false_eq_true, if_false]
      cases ho : oracle c b.name with
      | ok =>
        exact List.Forall₂.cons ⟨rfl, rfl, rfl, Or.inr ⟨hd, rfl⟩⟩ ih
      | err ex =>
        exact List.Forall₂.cons (dlFrameEntry_refl dir c (n, b))
          (List.forall₂_same.2 fun x _ => dlFrameEntry_refl dir c x)

/-- A download pass over the hierarchy only sets staging paths. -/
theorem downloadHier_frame (oracle : DlOracle) (dir : String) (h : Hierarchy) :
    DlFrameHier dir h (downloadHier oracle dir h).hier := by
  induction h with
  | nil => exact List.Forall₂.nil
  | cons ce rest ih =>
    obtain ⟨c, snap⟩ := ce
    simp only [downloadHier]
    cases hr : (downloadSnap oracle dir c snap).exc with
    | some ex =>
      exact List.Forall₂.cons ⟨rfl, downloadSnap_frame oracle dir c snap⟩
        (List.forall₂_same.2 fun x _ =>
          ⟨rfl, List.forall₂_same.2 fun u _ => dlFrameEntry_refl dir x.1 u⟩)
    | none =>
      exact List.Forall₂.cons ⟨rfl, downloadSnap_frame oracle dir c snap⟩ ih

/-- Every successful download call of a container pass leaves the named blob
with its staging path set in the resulting snapshot. -/
theorem downloadSnap_ok_call (oracle : DlOracle) (dir c : String) (snap : ContainerSnapshot)
    (c' n : String) (h : (c', n, DlOutcome.ok) ∈ (downloadSnap oracle dir c snap).calls) :
    c' = c ∧ ∃ k b, (k, b) ∈ (downloadSnap oracle dir c snap).snap ∧
      b.properties.name = n ∧ b.data_local_path.isSome = true := by
  induction snap with
  | nil => simp [downloadSnap] at h
  | cons e rest ih =>
    obtain ⟨k0, b⟩ := e
    by_cases hd : b.is_downloaded = true
    · simp only [downloadSnap, hd, if_true] at h ⊢
      obtain ⟨hc, k, b', hmem, hname, hsome⟩ := ih h
      exact ⟨hc, k, b', List.mem_cons_of_mem _ hmem, hname, hsome⟩
    · rw [Bool.not_eq_true] at hd
      cases ho : oracle c b.name with
      | ok =>
        simp only [downloadSnap, hd, Bool.false_eq_true, if_false, ho, List.mem_cons] at h ⊢
        cases h with
        | inl heq =>
          have hc : c' = c := congrArg Prod.fst heq
          have hn : n = b.name := congrArg (fun x => x.2.1) heq
          exact ⟨hc, k0, _, Or.inl rfl, hn.symm, rfl⟩
        | inr hmem =>
          obtain ⟨hc, k, b', hm, hname, hsome⟩ := ih hmem
          exact ⟨hc, k, b', Or.inr hm, hname, hsome⟩
      | err ex =>
        simp only [downloadSnap, hd, Bool.false_eq_true, if_false, ho] at h
        simp at h

/-- Every successful download call of the whole pass leaves the named blob
with its staging path set in the resulting hierarchy. -/
theorem downloadHier_ok_call (oracle : DlOracle) (dir : String) (h : Hierarchy)
    (c' n : String) (hmem : (c', n, DlOutcome.ok) ∈ (downloadHier oracle dir h).calls) :
    ∃ snap k b, (c', snap) ∈ (downloadHier oracle dir h).hier ∧ (k, b) ∈ snap ∧
      b.properties.name = n ∧ b.data_local_path.isSome = true := by
  induction h with
  | nil => simp [downloadHier] at hmem
  | cons ce rest ih =>
    obtain ⟨c, snap⟩ := ce
    cases hr : (downloadSnap oracle dir c snap).exc with
    | some ex =>
      simp only [downloadHier, hr] at hmem ⊢
      obtain ⟨hc, k, b, hm, hname, hsome⟩ := downloadSnap_ok_call oracle dir c snap c' n hmem
      rw [hc]
      exact ⟨(downloadSnap oracle dir c snap).snap, k, b, List.mem_cons_self _ _, hm, hname, hsome⟩
    | none =>
      simp only [downloadHier, hr, List.mem_append] at hmem ⊢
      cases hmem with
      | inl hin =>
        obtain ⟨hc, k, b, hm, hname, hsome⟩ := downloadSnap_ok_call oracle dir c snap c' n hin
        rw [hc]
        exact ⟨(downloadSnap oracle dir c snap).snap, k, b, List.mem_cons_self _ _, hm, hname, hsome⟩
      | inr hin =>
        obtain ⟨s, k, b, hs, hm, hname, hsome⟩ := ih hin
        exact ⟨s, k, b, List.mem_cons_of_mem _ hs, hm, hname, hsome⟩

/-- After an error-free container pass under a nonempty staging root, every
record of the resulting snapshot is downloaded. -/
theorem downloadSnap_success_all (oracle : DlOracle) (dir c : String)
    (snap : ContainerSnapshot) (hdir : dir ≠ "")
    (hs : (downloadSnap oracle dir c snap).exc = none) :
    ∀ e ∈ (downloadSnap oracle dir c snap).snap, e.2.is_downloaded = true := by
  induction snap with
  | nil => intro e he; simp [downloadSnap] at he
  | cons p rest ih =>
    obtain ⟨k0, b⟩ := p
    by_cases hd : b.is_downloaded = true
    · simp only [downloadSnap, hd, if_true] at hs ⊢
      intro e he
      rcases List.mem_cons.mp he with heq | hm
      · rw [heq]; exact hd
      · exact ih hs e hm
    · rw [Bool.not_eq_true] at hd
      cases ho : oracle c b.name with
      | ok =>
        simp only [downloadSnap, hd, Bool.false_eq_true, if_false, ho] at hs ⊢
        intro e he
        rcases List.mem_cons.mp he with heq | hm
        · rw [heq]
          exact is_downloaded_of_osJoin dir c b.name b.properties b.uploaded hdir
        · exact ih hs e hm
      | err ex =>
        simp only [downloadSnap, hd, Bool.false_eq_true, if_false, ho] at hs
        simp at hs

/-- After an error-free download pass under a nonempty staging root, every
record of the resulting hierarchy is downloaded. -/
theorem downloadHier_success_all (oracle : DlOracle) (dir : String) (h : Hierarchy)
    (hdir : dir ≠ "") (hs : (downloadHier oracle dir h).exc = none) :
    ∀ ce ∈ (downloadHier oracle dir h).hier, ∀ e ∈ ce.2, e.2.is_downloaded = true := by
  induction h with
  | nil => intro ce hce; simp [downloadHier] at hce
  | cons p rest ih =>
    obtain ⟨c, snap⟩ := p
    cases hr : (downloadSnap oracle dir c snap).exc with
    | some ex =>
      simp only [downloadHier, hr] at hs
      simp at hs
    | none =>
      simp only [downloadHier, hr] at hs ⊢
      intro ce hce
      rcases List.mem_cons.mp hce with heq | hm
      · rw [heq]
        exact downloadSnap_success_all oracle dir c snap hdir hr
      · exact ih hs ce hm

/-- A container pass over an all-downloaded snapshot issues no calls and
changes nothing. -/
theorem downloadSnap_id (oracle : DlOracle) (dir c : String) (snap : ContainerSnapshot)
    (hall : ∀ e ∈ snap, e.2.is_downloaded = true) :
    downloadSnap oracle dir c snap = ⟨snap, [], none⟩ := by
  induction snap with
  | nil => rfl
  | cons p rest ih =>
    obtain ⟨k0, b⟩ := p
    have hd : b.is_downloaded = true := hall (k0, b) (List.mem_cons_self _ _)
    have hrest := ih fun e he => hall e (List.mem_cons_of_mem _ he)
    simp [downloadSnap, hd, hrest]

/-- A download pass over an all-downloaded hierarchy issues no calls and
changes nothing. -/
theorem downloadHier_id (oracle : DlOracle) (dir : String) (h : Hierarchy)
    (hall : ∀ ce ∈ h, ∀ e ∈ ce.2, e.2.is_downloaded = true) :
    downloadHier oracle dir h = ⟨h, [], none⟩ := by
  induction h with
  | nil => rfl
  | cons p rest ih =>
    obtain ⟨c, snap⟩ := p
    have hsnap := downloadSnap_id oracle dir c snap (hall (c, snap) (List.mem_cons_self _ _))
    have hrest := ih fun ce hce => hall ce (List.mem_cons_of_mem _ hce)
    simp [downloadHier, hsnap, hrest]

/-! ### Upload-pass lemmas -/

theorem upFrameEntry_refl (u : String × BlobInfo) : UpFrameEntry u u :=
  ⟨rfl, rfl, rfl, Or.inl rfl⟩

/-- A per-blob upload step either leaves the record unchanged (with a pending
error) or only flips `uploaded` to true (with no error). -/
theorem uploadBlobStep_cases (cc : Bool) (store : DstStore) (base c : String) (b : BlobInfo) :
    ((uploadBlobStep cc store base c b).exc = none ∧
      (uploadBlobStep cc store base c b).blob = { b with uploaded := true }) ∨
    (∃ e, (uploadBlobStep cc store base c b).exc = some e ∧
      (uploadBlobStep cc store base c b).blob = b) := by
  unfold uploadBlobStep
  cases store.tryUpload c b.name 0 with
  | ok => exact Or.inl ⟨rfl, rfl⟩
  | err e =>
    dsimp only
    split
    · cases (store.create_container c).tryUpload c b.name 1 with
      | ok => exact Or.inl ⟨rfl, rfl⟩
      | err e2 => exact Or.inr ⟨e2, rfl, rfl⟩
    · exact Or.inr ⟨e, rfl, rfl⟩

/-- Every store call of a per-blob upload step is a container creation or an
upload of exactly the record's passthrough argument list. -/
theorem uploadBlobStep_events (cc : Bool) (store : DstStore) (base c : String) (b : BlobInfo) :
    ∀ ev ∈ (uploadBlobStep cc store base c b).events,
      ev = .createEvt c ∨ ev = .uploadEvt c (mkUploadCall base b) := by
  intro ev hev
  cases h0 : store.tryUpload c b.name 0 with
  | ok =>
    simp only [uploadBlobStep, h0, List.mem_singleton] at hev
    exact Or.inr hev
  | err e =>
    cases hsplit : (isContainerNotFound e && cc) with
    | false =>
      simp only [uploadBlobStep, h0, hsplit, Bool.false_eq_true, if_false,
        List.mem_singleton] at hev
      exact Or.inr hev
    | true =>
      cases h1 : (store.create_container c).tryUpload c b.name 1 with
      | ok =>
        simp only [uploadBlobStep, h0, hsplit, if_true, h1, List.mem_cons,
          List.mem_singleton, List.not_mem_nil, or_false] at hev
        rcases hev with h | h | h
        · exact Or.inr h
        · exact Or.inl h
        · exact Or.inr h
      | err e2 =>
        simp only [uploadBlobStep, h0, hsplit, if_true, h1, List.mem_cons,
          List.mem_singleton, List.not_mem_nil, or_false] at hev
        rcases hev with h | h | h
        · exact Or.inr h
        · exact Or.inl h
        · exact Or.inr h

/-- An upload pass over one container only flips `uploaded` flags of records
it attempted; keys, properties and staging paths are untouched. -/
theorem uploadSnap_frame (cc : Bool) (base c : String) (store : DstStore)
    (snap : ContainerSnapshot) :
    List.Forall₂ UpFrameEntry snap (uploadSnap cc base c store snap).snap := by
  induction snap generalizing store with
  | nil => exact List.Forall₂.nil
  | cons p rest ih =>
    obtain ⟨n, b⟩ := p
    by_cases he : (b.is_downloaded && !b.is_uploaded) = true
    · have hentry : UpFrameEntry (n, b) (n, (uploadBlobStep cc store base c b).blob) := by
        rcases uploadBlobStep_cases cc store base c b with ⟨_, hb⟩ | ⟨e, _, hb⟩
        · rw [hb]
          rcases Bool.and_eq_true_iff.mp he with ⟨hdl, hup⟩
          exact ⟨rfl, rfl, rfl, Or.inr ⟨hdl, by simpa [BlobInfo.is_uploaded] using hup, rfl⟩⟩
        · rw [hb]
          exact upFrameEntry_refl (n, b)
      cases hs : (uploadBlobStep cc store base c b).exc with
      | some e =>
        simp only [uploadSnap, he, if_true, hs]
        exact List.Forall₂.cons hentry (List.forall₂_same.2 fun x _ => upFrameEntry_refl x)
      | none =>
        simp only [uploadSnap, he, if_true, hs]
        exact List.Forall₂.cons hentry (ih _)
    · rw [Bool.not_eq_true] at he
      simp only [uploadSnap, he, Bool.false_eq_true, if_false]
      exact List.Forall₂.cons (upFrameEntry_refl (n, b)) (ih _)

/-- An upload pass over the hierarchy only flips `uploaded` flags. -/
theorem uploadHier_frame (cc : Bool) (dir : String) (store : DstStore) (h : Hierarchy) :
    UpFrameHier h (uploadHier cc dir store h).hier := by
  induction h generalizing store with
  | nil => exact List.Forall₂.nil
  | cons p rest ih =>
    obtain ⟨c, snap⟩ := p
    cases hr : (uploadSnap cc (osJoin dir c) c store snap).exc with
    | some e =>
      simp only [uploadHier, hr]
      exact List.Forall₂.cons ⟨rfl, uploadSnap_frame cc (osJoin dir c) c store snap⟩
        (List.forall₂_same.2 fun x _ =>
          ⟨rfl, List.forall₂_same.2 fun u _ => upFrameEntry_refl u⟩)
    | none =>
      simp only [uploadHier, hr]
      exact List.Forall₂.cons ⟨rfl, uploadSnap_frame cc (osJoin dir c) c store snap⟩ (ih _)

/-- Every store call of a container's upload pass belongs to an eligible
record of that snapshot and carries exactly its passthrough arguments. -/
theorem uploadSnap_events (cc : Bool) (base c : String) (store : DstStore)
    (snap : ContainerSnapshot) :
    ∀ ev ∈ (uploadSnap cc base c store snap).events,
      ∃ k b, (k, b) ∈ snap ∧ b.is_downloaded = true ∧ b.is_uploaded = false ∧
        (ev = .createEvt c ∨ ev = .uploadEvt c (mkUploadCall base b)) := by
  induction snap generalizing store with
  | nil => intro ev hev; simp [uploadSnap] at hev
  | cons p rest ih =>
    obtain ⟨n, b⟩ := p
    intro ev hev
    by_cases he : (b.is_downloaded && !b.is_uploaded) = true
    · rcases Bool.and_eq_true_iff.mp he with ⟨hdl, hup⟩
      have hup' : b.is_uploaded = false := by simpa using hup
      cases hs : (uploadBlobStep cc store base c b).exc with
      | some e =>
        simp only [uploadSnap, he, if_true, hs] at hev
        rcases uploadBlobStep_events cc store base c b ev hev with h1 | h2
        · exact ⟨n, b, List.mem_cons_self _ _, hdl, hup', Or.inl h1⟩
        · exact ⟨n, b, List.mem_cons_self _ _, hdl, hup', Or.inr h2⟩
      | none =>
        simp only [uploadSnap, he, if_true, hs, List.mem_append] at hev
        cases hev with
        | inl hin =>
          rcases uploadBlobStep_events cc store base c b ev hin with h1 | h2
          · exact ⟨n, b, List.mem_cons_self _ _, hdl, hup', Or.inl h1⟩
          · exact ⟨n, b, List.mem_cons_self _ _, hdl, hup', Or.inr h2⟩
        | inr hin =>
          obtain ⟨k, b', hm, hdl', hup'', hor⟩ := ih _ ev hin
          exact ⟨k, b', List.mem_cons_of_mem _ hm, hdl', hup'', hor⟩
    · rw [Bool.not_eq_true] at he
      simp only [uploadSnap, he, Bool.false_eq_true, if_false] at hev
      obtain ⟨k, b', hm, hdl', hup'', hor⟩ := ih _ ev hev
      exact ⟨k, b', List.mem_cons_of_mem _ hm, hdl', hup'', hor⟩

/-- After an error-free upload pass over one container, every record that was
eligible (downloaded, not uploaded) carries a true `uploaded` flag. -/
theorem uploadSnap_success_marks (cc : Bool) (base c : String) (store : DstStore)
    (snap : ContainerSnapshot) (hs : (uploadSnap cc base c store snap).exc = none) :
    List.Forall₂ UpMarkedEntry snap (uploadSnap cc base c store snap).snap := by
  induction snap generalizing store with
  | nil => exact List.Forall₂.nil
  | cons p rest ih =>
    obtain ⟨n, b⟩ := p
    by_cases he : (b.is_downloaded && !b.is_uploaded) = true
    · cases hstep : (uploadBlobStep cc store base c b).exc with
      | some e =>
        simp only [uploadSnap, he, if_true, hstep] at hs
        simp at hs
      | none =>
        simp only [uploadSnap, he, if_true, hstep] at hs ⊢
        have hb : (uploadBlobStep cc store base c b).blob = { b with uploaded := true } := by
          rcases uploadBlobStep_cases cc store base c b with ⟨_, hb⟩ | ⟨e, hee, _⟩
          · exact hb
          · rw [hee] at hstep; simp at hstep
        rw [hb]
        exact List.Forall₂.cons ⟨rfl, fun _ => rfl⟩ (ih _ hs)
    · rw [Bool.not_eq_true] at he
      simp only [uploadSnap, he, Bool.false_eq_true, if_false] at hs ⊢
      refine List.Forall₂.cons ⟨rfl, fun hcon => ?_⟩ (ih _ hs)
      exfalso
      rw [hcon.1, hcon.2] at he
      simp at he

/-- After an error-free upload pass, every eligible record of the hierarchy
carries a true `uploaded` flag. -/
theorem uploadHier_success_marks (cc : Bool) (dir : String) (store : DstStore) (h : Hierarchy)
    (hs : (uploadHier cc dir store h).exc = none) :
    UpMarkedHier h (uploadHier cc dir store h).hier := by
  induction h generalizing store with
  | nil => exact List.Forall₂.nil
  | cons p rest ih =>
    obtain ⟨c, snap⟩ := p
    cases hr : (uploadSnap cc (osJoin dir c) c store snap).exc with
    | some e =>
      simp only [uploadHier, hr] at hs
      simp at hs
    | none =>
      simp only [uploadHier, hr] at hs ⊢
      exact List.Forall₂.cons
        ⟨rfl, uploadSnap_success_marks cc (osJoin dir c) c store snap hr⟩ (ih _ hs)

/-- Every store call of the whole upload pass belongs to an eligible record
of the input hierarchy and carries exactly its passthrough arguments. -/
theorem uploadHier_events (cc : Bool) (dir : String) (store : DstStore) (h : Hierarchy) :
    ∀ ev ∈ (uploadHier cc dir store h).events,
      ∃ c snap k b, (c, snap) ∈ h ∧ (k, b) ∈ snap ∧ b.is_downloaded = true ∧
        b.is_uploaded = false ∧
        (ev = .createEvt c ∨ ev = .uploadEvt c (mkUploadCall (osJoin dir c) b)) := by
  induction h generalizing store with
  | nil => intro ev hev; simp [uploadHier] at hev
  | cons p rest ih =>
    obtain ⟨c, snap⟩ := p
    intro ev hev
    cases hr : (uploadSnap cc (osJoin dir c) c store snap).exc with
    | some e =>
      simp only [uploadHier, hr] at hev
      obtain ⟨k, b, hm, hdl, hup, hor⟩ := uploadSnap_events cc (osJoin dir c) c store snap ev hev
      exact ⟨c, snap, k, b, List.mem_cons_self _ _, hm, hdl, hup, hor⟩
    | none =>
      simp only [uploadHier, hr, List.mem_append] at hev
      cases hev with
      | inl hin =>
        obtain ⟨k, b, hm, hdl, hup, hor⟩ := uploadSnap_events cc (osJoin dir c) c store snap ev hin
        exact ⟨c, snap, k, b, List.mem_cons_self _ _, hm, hdl, hup, hor⟩
      | inr hin =>
        obtain ⟨c2, s2, k, b, hs2, hm, hdl, hup, hor⟩ := ih _ ev hin
        exact ⟨c2, s2, k, b, List.mem_cons_of_mem _ hs2, hm, hdl, hup, hor⟩

/-! ### Enumeration lemmas -/

/-- The enumeration predicate, spelled out. -/
theorem keepBlob_iff (p : BlobProperties) :
    keepBlob p = true ↔
      (p.deleted = false ∧ (0 < p.size ∨ p.content_settings.content_md5.isSome = true)) := by
  unfold keepBlob
  cases hd : p.deleted
  · simp [Nat.pos_iff_ne_zero]
  · simp

/-- Membership in `snapshotOf`: a listed blob's fresh record is in the
snapshot exactly when the enumeration predicate holds. -/
theorem mem_snapshotOf_iff (blobs : List BlobProperties) (p : BlobProperties)
    (hp : p ∈ blobs) :
    (p.name, ({ properties := p } : BlobInfo)) ∈ snapshotOf blobs ↔ keepBlob p = true := by
  constructor
  · intro hmem
    obtain ⟨q, hq, heq⟩ := List.mem_map.1 hmem
    have hqp : q = p := congrArg (fun e => e.2.properties) heq
    rw [← hqp]
    exact (List.mem_filter.1 hq).2
  · intro hk
    exact List.mem_map.2 ⟨p, List.mem_filter.2 ⟨hp, hk⟩, rfl⟩

/-! ### Frame-to-monotonicity conversions -/

theorem dlFrame_to_mono (dir : String) (h h' : Hierarchy) (hf : DlFrameHier dir h h') :
    HierMono h h' := by
  refine List.Forall₂.imp ?_ hf
  intro x y hxy
  refine ⟨hxy.1, List.Forall₂.imp ?_ hxy.2⟩
  intro u v huv
  obtain ⟨hk, hp, hu, hpath⟩ := huv
  refine ⟨hk, ?_, ?_⟩
  · intro hsome
    rcases hpath with heq | ⟨_, hset⟩
    · rw [heq]; exact hsome
    · rw [hset]; rfl
  · intro hup; rw [hu]; exact hup

theorem upFrame_to_mono (h h' : Hierarchy) (hf : UpFrameHier h h') : HierMono h h' := by
  refine List.Forall₂.imp ?_ hf
  intro x y hxy
  refine ⟨hxy.1, List.Forall₂.imp ?_ hxy.2⟩
  intro u v huv
  obtain ⟨hk, hp, hpath, hup⟩ := huv
  refine ⟨hk, ?_, ?_⟩
  · intro hsome; rw [hpath]; exact hsome
  · intro htrue
    rcases hup with heq | ⟨_, _, hset⟩
    · rw [heq]; exact htrue
    · exact hset

/-! ### Claim theorems -/

/-- C1: on every exit path of a download pass — normal completion, any
exception, or keyboard interrupt from the oracle — the checkpoint written by
the `finally:` block at `stagingRoot/hierarchy.pickle` deserializes to
exactly the hierarchy as mutated so far, the pending error is re-raised as
the pass outcome, and every blob whose download call succeeded before the
abort is recorded with its staging path set. -/
theorem c1_checkpoint_every_exit (oracle : DlOracle) (dir : String) (h : Hierarchy) :
    (download_blobs oracle dir h).saved_path = osJoin dir FILE_WITH_HIERARCHY_NAME ∧
    open_hierarchy_local (download_blobs oracle dir h).saved =
      some (download_blobs oracle dir h).hierarchy ∧
    (download_blobs oracle dir h).outcome = (downloadHier oracle dir h).exc ∧
    (∀ c n, (c, n, DlOutcome.ok) ∈ (download_blobs oracle dir h).calls →
      ∃ snap k b, (c, snap) ∈ (download_blobs oracle dir h).hierarchy ∧ (k, b) ∈ snap ∧
        b.properties.name = n ∧ b.data_local_path.isSome = true) := by
  refine ⟨rfl, pickle_load_pickle_dump _, rfl, ?_⟩
  intro c n hmem
  exact downloadHier_ok_call oracle dir h c n hmem

/-- C2: a blob listed by the source store is included in the returned
hierarchy if and only if it is not marked deleted and (its size is greater
than zero or it carries a content hash); in particular zero-size hash-less
blobs are excluded and zero-size hashed blobs are included. -/
theorem c2_enumeration_filter (listing : List (String × List BlobProperties))
    (c : String) (blobs : List BlobProperties) (p : BlobProperties)
    (hc : (c, blobs) ∈ listing) (hp : p ∈ blobs) :
    ∃ snap, (c, snap) ∈ get_hierarchy listing ∧
      ((p.name, ({ properties := p } : BlobInfo)) ∈ snap ↔
        (p.deleted = false ∧
          (0 < p.size ∨ p.content_settings.content_md5.isSome = true))) := by
  refine ⟨snapshotOf blobs, List.mem_map.2 ⟨(c, blobs), hc, rfl⟩, ?_⟩
  rw [mem_snapshotOf_iff blobs p hp]
  exact keepBlob_iff p

/-- Witness for C2 at the spec's §8 scenario: container `c1` lists `a.txt`
(size 10, no hash), `b.txt` (size 0, with hash) and `dir_marker` (size 0, no
hash); the zero-size hashed blob `b.txt` is included. -/
theorem c2_enumeration_filter_witness :
    ∃ snap, ("c1", snap) ∈ get_hierarchy
        [("c1", [⟨"a.txt", 10, false, "BlockBlob", [], ⟨none, none⟩⟩,
                 ⟨"b.txt", 0, false, "BlockBlob", [], ⟨none, some "deadbeef"⟩⟩,
                 ⟨"dir_marker", 0, false, "BlockBlob", [], ⟨none, none⟩⟩])] ∧
      ((BlobProperties.name ⟨"b.txt", 0, false, "BlockBlob", [], ⟨none, some "deadbeef"⟩⟩,
          ({ properties := ⟨"b.txt", 0, false, "BlockBlob", [], ⟨none, some "deadbeef"⟩⟩ } :
            BlobInfo)) ∈ snap ↔
        (BlobProperties.deleted ⟨"b.txt", 0, false, "BlockBlob", [], ⟨none, some "deadbeef"⟩⟩
            = false ∧
          (0 < BlobProperties.size ⟨"b.txt", 0, false, "BlockBlob", [], ⟨none, some "deadbeef"⟩⟩ ∨
            (ContentSettings.content_md5 ⟨none, some "deadbeef"⟩).isSome = true))) :=
  c2_enumeration_filter
    [("c1", [⟨"a.txt", 10, false, "BlockBlob", [], ⟨none, none⟩⟩,
             ⟨"b.txt", 0, false, "BlockBlob", [], ⟨none, some "deadbeef"⟩⟩,
             ⟨"dir_marker", 0, false, "BlockBlob", [], ⟨none, none⟩⟩])]
    "c1"
    [⟨"a.txt", 10, false, "BlockBlob", [], ⟨none, none⟩⟩,
     ⟨"b.txt", 0, false, "BlockBlob", [], ⟨none, some "deadbeef"⟩⟩,
     ⟨"dir_marker", 0, false, "BlockBlob", [], ⟨none, none⟩⟩]
    ⟨"b.txt", 0, false, "BlockBlob", [], ⟨none, some "deadbeef"⟩⟩
    (by decide) (by decide)

/-- C5: checkpoint fidelity — loading the serialized checkpoint of any
hierarchy, including one with partially-transferred status fields, yields a
hierarchy equal to it in every field of every record. -/
theorem c5_checkpoint_fidelity (h : Hierarchy) :
    open_hierarchy_local (pickle_dump h) = some h :=
  pickle_load_pickle_dump h

/-- C9: a listed container whose blobs are all filtered out by the
enumeration predicate still appears as a key of the returned hierarchy,
mapped to the empty snapshot, for which a download pass and an upload pass
perform no work. -/
theorem c9_empty_container_kept (listing : List (String × List BlobProperties))
    (c : String) (blobs : List BlobProperties) (hc : (c, blobs) ∈ listing)
    (hnone : ∀ p ∈ blobs,
      ¬(p.deleted = false ∧ (0 < p.size ∨ p.content_settings.content_md5.isSome = true))) :
    (c, snapshotOf blobs) ∈ get_hierarchy listing ∧ snapshotOf blobs = [] ∧
      (∀ oracle dir, downloadSnap oracle dir c (snapshotOf blobs) = ⟨[], [], none⟩) ∧
      (∀ cc base store, uploadSnap cc base c store (snapshotOf blobs) = ⟨store, [], [], none⟩) := by
  have hempty : snapshotOf blobs = [] := by
    unfold snapshotOf
    have : blobs.filter keepBlob = [] := by
      rw [List.filter_eq_nil_iff]
      intro p hp hk
      exact hnone p hp ((keepBlob_iff p).mp hk)
    rw [this]
    rfl
  refine ⟨List.mem_map.2 ⟨(c, blobs), hc, rfl⟩, hempty, ?_, ?_⟩
  · intro oracle dir; rw [hempty]; rfl
  · intro cc base store; rw [hempty]; rfl

/-- Witness for C9: a container listing only a deleted blob and a zero-size
hash-less directory marker is still a key of the hierarchy, with an empty
snapshot. -/
theorem c9_empty_container_kept_witness :
    ("c0", snapshotOf [⟨"gone", 5, true, "BlockBlob", [], ⟨none, none⟩⟩,
        ⟨"dir_marker", 0, false, "BlockBlob", [], ⟨none, none⟩⟩]) ∈
      get_hierarchy [("c0", [⟨"gone", 5, true, "BlockBlob", [], ⟨none, none⟩⟩,
        ⟨"dir_marker", 0, false, "BlockBlob", [], ⟨none, none⟩⟩])] ∧
    snapshotOf [⟨"gone", 5, true, "BlockBlob", [], ⟨none, none⟩⟩,
        ⟨"dir_marker", 0, false, "BlockBlob", [], ⟨none, none⟩⟩] = [] ∧
    (∀ oracle dir, downloadSnap oracle dir "c0" (snapshotOf
        [⟨"gone", 5, true, "BlockBlob", [], ⟨none, none⟩⟩,
         ⟨"dir_marker", 0, false, "BlockBlob", [], ⟨none, none⟩⟩]) = ⟨[], [], none⟩) ∧
    (∀ cc base store, uploadSnap cc base "c0" store (snapshotOf
        [⟨"gone", 5, true, "BlockBlob", [], ⟨none, none⟩⟩,
         ⟨"dir_marker", 0, false, "BlockBlob", [], ⟨none, none⟩⟩]) = ⟨store, [], [], none⟩) :=
  c9_empty_container_kept _ "c0" _ (by decide) (by decide)

/-- C10: a download pass mutates only staging-path fields and an upload pass
mutates only uploaded flags; keys, source properties and all other fields of
every record, and the shape of the hierarchy, are untouched. -/
theorem c10_pass_frames :
    (∀ oracle dir h, DlFrameHier dir h (download_blobs oracle dir h).hierarchy) ∧
    (∀ store h dir cc, UpFrameHier h (upload_blobs store h dir cc).hier) :=
  ⟨fun oracle dir h => downloadHier_frame oracle dir h,
   fun store h dir cc => uploadHier_frame cc dir store h⟩

/-- C8: status monotonicity across every operation of the system —
enumeration creates records with an unset staging path and a false uploaded
flag, a download pass and an upload pass never unset a staging path nor reset
a true uploaded flag, and checkpoint save/load preserves records exactly. -/
theorem c8_status_monotonic :
    (∀ listing ce, ce ∈ get_hierarchy listing → ∀ e ∈ ce.2,
      e.2.data_local_path = none ∧ e.2.uploaded = false) ∧
    (∀ oracle dir h, HierMono h (download_blobs oracle dir h).hierarchy) ∧
    (∀ store h dir cc, HierMono h (upload_blobs store h dir cc).hier) ∧
    (∀ h, open_hierarchy_local (pickle_dump h) = some h) := by
  refine ⟨?_, ?_, ?_, fun h => pickle_load_pickle_dump h⟩
  · intro listing ce hce e he
    obtain ⟨p, hp, hpe⟩ := List.mem_map.1 hce
    rw [← hpe] at he
    obtain ⟨q, hq, hqe⟩ := List.mem_map.1 he
    rw [← hqe]
    exact ⟨rfl, rfl⟩
  · intro oracle dir h
    exact dlFrame_to_mono dir h _ (downloadHier_frame oracle dir h)
  · intro store h dir cc
    exact upFrame_to_mono h _ (uploadHier_frame cc dir store h)

/-- C3 counterexample: uploading a staged zero-length blob, the upload call's
`length` argument is `None` (`length=self.properties.size or None`), not the
blob's exact byte length `0`. -/
theorem c3_counterexample_zero_length :
    (upload_blobs ⟨["c"], fun _ _ _ => UpOutcome.ok⟩
        [("c", [("z", ⟨⟨"z", 0, false, "BlockBlob", [], ⟨none, some "m"⟩⟩,
                       some "/t/c/z", false⟩)])]
        "/t" false).events =
      [UpEvent.uploadEvt "c" ⟨"z", "/t/c/z", "BlockBlob", none, [], ⟨none, some "m"⟩⟩] ∧
    UploadCall.length ⟨"z", "/t/c/z", "BlockBlob", none, [], ⟨none, some "m"⟩⟩ ≠
      some (BlobProperties.size ⟨"z", 0, false, "BlockBlob", [], ⟨none, some "m"⟩⟩) := by
  constructor
  · decide
  · decide

/-- C3 as amended: every upload call of the pass belongs to an eligible
record (staging path truthy, uploaded flag false) and carries the source
blob's kind, metadata and content-settings unchanged, and its exact byte
length when the size is positive — but `None` as the length for a
zero-length blob; on an error-free pass every eligible record's uploaded
flag is set to true. -/
theorem c3_amended_upload_passthrough :
    (∀ base b, (mkUploadCall base b).name = b.properties.name ∧
      (mkUploadCall base b).blob_type = b.properties.blob_type ∧
      (mkUploadCall base b).metadata = b.properties.metadata ∧
      (mkUploadCall base b).content_settings = b.properties.content_settings ∧
      (mkUploadCall base b).length =
        (if b.properties.size = 0 then none else some b.properties.size)) ∧
    (∀ cc dir store h, ∀ ev ∈ (upload_blobs store h dir cc).events,
      ∃ c snap k b, (c, snap) ∈ h ∧ (k, b) ∈ snap ∧ b.is_downloaded = true ∧
        b.is_uploaded = false ∧
        (ev = .createEvt c ∨ ev = .uploadEvt c (mkUploadCall (osJoin dir c) b))) ∧
    (∀ cc dir store h, (upload_blobs store h dir cc).exc = none →
      UpMarkedHier h (upload_blobs store h dir cc).hier) := by
  refine ⟨fun base b => ⟨rfl, rfl, rfl, rfl, rfl⟩, ?_, ?_⟩
  · intro cc dir store h ev hev
    exact uploadHier_events cc dir store h ev hev
  · intro cc dir store h hs
    exact uploadHier_success_marks cc dir store h hs

/-- C4: when an upload attempt fails, the handling is exactly two-branch.
Container-not-found with `create_containers` true: create the container
(default settings) and retry that single upload exactly once, the retry's
failure propagating with the record unchanged.  Any other failure (or
container-not-found with `create_containers` false): propagate immediately
with no container created and the record and store unchanged.  Either way a
propagated failure aborts the remaining work of the container's pass. -/
theorem c4_upload_failure_two_branch (cc : Bool) (store : DstStore) (base c : String)
    (b : BlobInfo) (e0 : AzureError) (hfail : store.tryUpload c b.name 0 = .err e0) :
    ((isContainerNotFound e0 && cc) = true →
      (uploadBlobStep cc store base c b).events =
        [.uploadEvt c (mkUploadCall base b), .createEvt c,
         .uploadEvt c (mkUploadCall base b)] ∧
      (uploadBlobStep cc store base c b).store = store.create_container c ∧
      ((store.create_container c).tryUpload c b.name 1 = .ok →
        (uploadBlobStep cc store base c b).exc = none ∧
        (uploadBlobStep cc store base c b).blob = { b with uploaded := true }) ∧
      (∀ e1, (store.create_container c).tryUpload c b.name 1 = .err e1 →
        (uploadBlobStep cc store base c b).exc = some e1 ∧
        (uploadBlobStep cc store base c b).blob = b)) ∧
    ((isContainerNotFound e0 && cc) = false →
      (uploadBlobStep cc store base c b).events = [.uploadEvt c (mkUploadCall base b)] ∧
      (uploadBlobStep cc store base c b).exc = some e0 ∧
      (uploadBlobStep cc store base c b).blob = b ∧
      (uploadBlobStep cc store base c b).store = store) ∧
    (∀ n rest ex, b.is_downloaded = true → b.is_uploaded = false →
      (uploadBlobStep cc store base c b).exc = some ex →
      uploadSnap cc base c store ((n, b) :: rest) =
        ⟨(uploadBlobStep cc store base c b).store,
         (n, (uploadBlobStep cc store base c b).blob) :: rest,
         (uploadBlobStep cc store base c b).events, some ex⟩) := by
  refine ⟨?_, ?_, ?_⟩
  · intro hcnf
    cases h1 : (store.create_container c).tryUpload c b.name 1 with
    | ok =>
      refine ⟨?_, ?_, fun _ => ⟨?_, ?_⟩, fun e1 he1 => ?_⟩ <;>
        simp_all [uploadBlobStep, hfail, hcnf, if_true, h1]
    | err e2 =>
      refine ⟨?_, ?_, fun hok => ?_, fun e1 he1 => ⟨?_, ?_⟩⟩ <;>
        simp_all [uploadBlobStep, hfail, hcnf, if_true, h1]
  · intro hcnf
    simp only [uploadBlobStep, hfail, hcnf, Bool.false_eq_true, if_false]
    exact ⟨trivial, trivial, trivial, trivial⟩
  · intro n rest ex hdl hup hexc
    have he : (b.is_downloaded && !b.is_uploaded) = true := by
      rw [hdl, hup]; rfl
    simp only [uploadSnap, he, if_true, hexc]

/-- Witness for C4: uploading into a store with no containers and
`create_containers` on, the first attempt raises container-not-found, the
container is created and the single retry succeeds. -/
theorem c4_upload_failure_two_branch_witness :
    (DstStore.tryUpload ⟨[], fun _ _ _ => UpOutcome.ok⟩ "c"
        (BlobInfo.name ⟨⟨"z", 1, false, "BlockBlob", [], ⟨none, none⟩⟩, some "/t/c/z", false⟩) 0 =
      .err (.resourceNotFound (some "ContainerNotFound"))) ∧
    ((isContainerNotFound (.resourceNotFound (some "ContainerNotFound")) && true) = true →
      (uploadBlobStep true ⟨[], fun _ _ _ => UpOutcome.ok⟩ "/t/c" "c"
          ⟨⟨"z", 1, false, "BlockBlob", [], ⟨none, none⟩⟩, some "/t/c/z", false⟩).events =
        [.uploadEvt "c" (mkUploadCall "/t/c"
            ⟨⟨"z", 1, false, "BlockBlob", [], ⟨none, none⟩⟩, some "/t/c/z", false⟩),
         .createEvt "c",
         .uploadEvt "c" (mkUploadCall "/t/c"
            ⟨⟨"z", 1, false, "BlockBlob", [], ⟨none, none⟩⟩, some "/t/c/z", false⟩)] ∧
      (uploadBlobStep true ⟨[], fun _ _ _ => UpOutcome.ok⟩ "/t/c" "c"
          ⟨⟨"z", 1, false, "BlockBlob", [], ⟨none, none⟩⟩, some "/t/c/z", false⟩).store =
        DstStore.create_container ⟨[], fun _ _ _ => UpOutcome.ok⟩ "c" ∧
      ((DstStore.create_container ⟨[], fun _ _ _ => UpOutcome.ok⟩ "c").tryUpload "c"
          (BlobInfo.name ⟨⟨"z", 1, false, "BlockBlob", [], ⟨none, none⟩⟩, some "/t/c/z", false⟩)
          1 = .ok →
        (uploadBlobStep true ⟨[], fun _ _ _ => UpOutcome.ok⟩ "/t/c" "c"
            ⟨⟨"z", 1, false, "BlockBlob", [], ⟨none, none⟩⟩, some "/t/c/z", false⟩).exc = none ∧
        (uploadBlobStep true ⟨[], fun _ _ _ => UpOutcome.ok⟩ "/t/c" "c"
            ⟨⟨"z", 1, false, "BlockBlob", [], ⟨none, none⟩⟩, some "/t/c/z", false⟩).blob =
          ⟨⟨"z", 1, false, "BlockBlob", [], ⟨none, none⟩⟩, some "/t/c/z", true⟩) ∧
      (∀ e1, (DstStore.create_container ⟨[], fun _ _ _ => UpOutcome.ok⟩ "c").tryUpload "c"
          (BlobInfo.name ⟨⟨"z", 1, false, "BlockBlob", [], ⟨none, none⟩⟩, some "/t/c/z", false⟩)
          1 = .err e1 →
        (uploadBlobStep true ⟨[], fun _ _ _ => UpOutcome.ok⟩ "/t/c" "c"
            ⟨⟨"z", 1, false, "BlockBlob", [], ⟨none, none⟩⟩, some "/t/c/z", false⟩).exc =
          some e1 ∧
        (uploadBlobStep true ⟨[], fun _ _ _ => UpOutcome.ok⟩ "/t/c" "c"
            ⟨⟨"z", 1, false, "BlockBlob", [], ⟨none, none⟩⟩, some "/t/c/z", false⟩).blob =
          ⟨⟨"z", 1, false, "BlockBlob", [], ⟨none, none⟩⟩, some "/t/c/z", false⟩)) := by
  constructor
  · decide
  · exact (c4_upload_failure_two_branch true ⟨[], fun _ _ _ => UpOutcome.ok⟩ "/t/c" "c"
      ⟨⟨"z", 1, false, "BlockBlob", [], ⟨none, none⟩⟩, some "/t/c/z", false⟩
      (.resourceNotFound (some "ContainerNotFound")) (by decide)).1

/-- C6: running the downloader again on the hierarchy left by a completed
run, with no external change (and a nonempty staging root), performs zero
additional transfer work: every blob's staging path is already set, so the
second run issues no download calls and returns the hierarchy unchanged. -/
theorem c6_second_run_idempotent (oracle oracle2 : DlOracle) (dir : String) (h : Hierarchy)
    (hdir : dir ≠ "") (hok : (download_blobs oracle dir h).outcome = none) :
    (download_blobs oracle2 dir (download_blobs oracle dir h).hierarchy).calls = [] ∧
    (download_blobs oracle2 dir (download_blobs oracle dir h).hierarchy).hierarchy =
      (download_blobs oracle dir h).hierarchy := by
  have hall := downloadHier_success_all oracle dir h hdir hok
  have hid := downloadHier_id oracle2 dir (downloadHier oracle dir h).hier hall
  constructor
  · show (downloadHier oracle2 dir (downloadHier oracle dir h).hier).calls = []
    rw [hid]
  · show (downloadHier oracle2 dir (downloadHier oracle dir h).hier).hier = _
    rw [hid]
    rfl

/-- Witness for C6: after a completed run over one container with one blob,
a second run issues no download calls and changes nothing. -/
theorem c6_second_run_idempotent_witness :
    (("d" : String) ≠ "") ∧
    (download_blobs (fun _ _ => DlOutcome.ok) "d"
        [("c", [("a", ⟨⟨"a", 1, false, "BlockBlob", [], ⟨none, none⟩⟩, none, false⟩)])]).outcome
      = none ∧
    ((download_blobs (fun _ _ => DlOutcome.ok) "d"
        (download_blobs (fun _ _ => DlOutcome.ok) "d"
          [("c", [("a", ⟨⟨"a", 1, false, "BlockBlob", [], ⟨none, none⟩⟩,
            none, false⟩)])]).hierarchy).calls = [] ∧
     (download_blobs (fun _ _ => DlOutcome.ok) "d"
        (download_blobs (fun _ _ => DlOutcome.ok) "d"
          [("c", [("a", ⟨⟨"a", 1, false, "BlockBlob", [], ⟨none, none⟩⟩,
            none, false⟩)])]).hierarchy).hierarchy =
       (download_blobs (fun _ _ => DlOutcome.ok) "d"
          [("c", [("a", ⟨⟨"a", 1, false, "BlockBlob", [], ⟨none, none⟩⟩,
            none, false⟩)])]).hierarchy) :=
  ⟨by decide, by decide,
    c6_second_run_idempotent (fun _ _ => DlOutcome.ok) (fun _ _ => DlOutcome.ok) "d"
      [("c", [("a", ⟨⟨"a", 1, false, "BlockBlob", [], ⟨none, none⟩⟩, none, false⟩)])]
      (by decide) (by decide)⟩

/-- C7: if the downloader is interrupted after completing blob A but before
completing blob B (A before B in listing order, same container), the
checkpoint saved at that point loads to a hierarchy showing A with its
staging path set and B with it unset — the path is assigned only after the
stream completes — and re-running the downloader on that hierarchy processes
only B. -/
theorem c7_resume_processes_only_b (oracle oracle2 : DlOracle) (dir c na nb : String)
    (pa pb : BlobProperties) (e : PyExc) (hdir : dir ≠ "")
    (hA : oracle c pa.name = .ok) (hB : oracle c pb.name = .err e)
    (hA2 : oracle2 c pb.name = .ok) :
    (download_blobs oracle dir
        [(c, [(na, { properties := pa }), (nb, { properties := pb })])]).outcome = some e ∧
    open_hierarchy_local (download_blobs oracle dir
        [(c, [(na, { properties := pa }), (nb, { properties := pb })])]).saved =
      some [(c, [(na, { properties := pa,
                        data_local_path := some (osJoin (osJoin dir c) pa.name) }),
                 (nb, { properties := pb })])] ∧
    (download_blobs oracle2 dir (download_blobs oracle dir
        [(c, [(na, { properties := pa }), (nb, { properties := pb })])]).hierarchy).calls =
      [(c, pb.name, DlOutcome.ok)] ∧
    (download_blobs oracle2 dir (download_blobs oracle dir
        [(c, [(na, { properties := pa }), (nb, { properties := pb })])]).hierarchy).hierarchy =
      [(c, [(na, { properties := pa,
                   data_local_path := some (osJoin (osJoin dir c) pa.name) }),
            (nb, { properties := pb,
                   data_local_path := some (osJoin (osJoin dir c) pb.name) })])] := by
  have ha0 : BlobInfo.is_downloaded { properties := pa } = false := rfl
  have hb0 : BlobInfo.is_downloaded { properties := pb } = false := rfl
  have h1 : downloadSnap oracle dir c [(na, { properties := pa }), (nb, { properties := pb })] =
      ⟨[(na, { properties := pa, data_local_path := some (osJoin (osJoin dir c) pa.name) }),
        (nb, { properties := pb })],
       [(c, pa.name, DlOutcome.ok), (c, pb.name, DlOutcome.err e)], some e⟩ := by
    simp [downloadSnap, ha0, hb0, BlobInfo.name, hA, hB]
  have h2 : downloadHier oracle dir
      [(c, [(na, { properties := pa }), (nb, { properties := pb })])] =
      ⟨[(c, [(na, { properties := pa, data_local_path := some (osJoin (osJoin dir c) pa.name) }),
             (nb, { properties := pb })])],
       [(c, pa.name, DlOutcome.ok), (c, pb.name, DlOutcome.err e)], some e⟩ := by
    simp [downloadHier, h1]
  have hadl : BlobInfo.is_downloaded
      { properties := pa, data_local_path := some (osJoin (osJoin dir c) pa.name) } = true :=
    is_downloaded_of_osJoin dir c pa.name pa false hdir
  have h3 : downloadSnap oracle2 dir c
      [(na, { properties := pa, data_local_path := some (osJoin (osJoin dir c) pa.name) }),
       (nb, { properties := pb })] =
      ⟨[(na, { properties := pa, data_local_path := some (osJoin (osJoin dir c) pa.name) }),
        (nb, { properties := pb, data_local_path := some (osJoin (osJoin dir c) pb.name) })],
       [(c, pb.name, DlOutcome.ok)], none⟩ := by
    simp [downloadSnap, hadl, hb0, BlobInfo.name, hA2]
  have h4 : downloadHier oracle2 dir
      [(c, [(na, { properties := pa, data_local_path := some (osJoin (osJoin dir c) pa.name) }),
            (nb, { properties := pb })])] =
      ⟨[(c, [(na, { properties := pa, data_local_path := some (osJoin (osJoin dir c) pa.name) }),
             (nb, { properties := pb,
                    data_local_path := some (osJoin (osJoin dir c) pb.name) })])],
       [(c, pb.name, DlOutcome.ok)], none⟩ := by
    simp [downloadHier, h3]
  refine ⟨?_, ?_, ?_, ?_⟩
  · show (downloadHier oracle dir _).exc = some e
    rw [h2]
  · show open_hierarchy_local (pickle_dump (downloadHier oracle dir _).hier) = _
    rw [h2]
    exact pickle_load_pickle_dump _
  · show (downloadHier oracle2 dir (downloadHier oracle dir _).hier).calls = _
    rw [h2]
    rw [show (HierPass.mk _ _ _).hier = _ from rfl, h4]
  · show (downloadHier oracle2 dir (downloadHier oracle dir _).hier).hier = _
    rw [h2]
    rw [show (HierPass.mk _ _ _).hier = _ from rfl, h4]

/-- Witness for C7: blob `a` completes, blob `b` is cut off by a keyboard
interrupt; the checkpoint shows `a` downloaded and `b` not, and the re-run
downloads only `b`. -/
theorem c7_resume_processes_only_b_witness :
    (download_blobs
        (fun _ n => if n = "b" then DlOutcome.err PyExc.keyboardInterrupt else DlOutcome.ok)
        "d" [("c1", [("a", ⟨⟨"a", 1, false, "BlockBlob", [], ⟨none, none⟩⟩, none, false⟩),
                     ("b", ⟨⟨"b", 2, false, "BlockBlob", [], ⟨none, none⟩⟩,
                       none, false⟩)])]).outcome = some PyExc.keyboardInterrupt ∧
    open_hierarchy_local (download_blobs
        (fun _ n => if n = "b" then DlOutcome.err PyExc.keyboardInterrupt else DlOutcome.ok)
        "d" [("c1", [("a", ⟨⟨"a", 1, false, "BlockBlob", [], ⟨none, none⟩⟩, none, false⟩),
                     ("b", ⟨⟨"b", 2, false, "BlockBlob", [], ⟨none, none⟩⟩,
                       none, false⟩)])]).saved =
      some [("c1", [("a", ⟨⟨"a", 1, false, "BlockBlob", [], ⟨none, none⟩⟩,
                      some (osJoin (osJoin "d" "c1") "a"), false⟩),
                    ("b", ⟨⟨"b", 2, false, "BlockBlob", [], ⟨none, none⟩⟩, none, false⟩)])] ∧
    (download_blobs (fun _ _ => DlOutcome.ok) "d" (download_blobs
        (fun _ n => if n = "b" then DlOutcome.err PyExc.keyboardInterrupt else DlOutcome.ok)
        "d" [("c1", [("a", ⟨⟨"a", 1, false, "BlockBlob", [], ⟨none, none⟩⟩, none, false⟩),
                     ("b", ⟨⟨"b", 2, false, "BlockBlob", [], ⟨none, none⟩⟩,
                       none, false⟩)])]).hierarchy).calls =
      [("c1", "b", DlOutcome.ok)] ∧
    (download_blobs (fun _ _ => DlOutcome.ok) "d" (download_blobs
        (fun _ n => if n = "b" then DlOutcome.err PyExc.keyboardInterrupt else DlOutcome.ok)
        "d" [("c1", [("a", ⟨⟨"a", 1, false, "BlockBlob", [], ⟨none, none⟩⟩, none, false⟩),
                     ("b", ⟨⟨"b", 2, false, "BlockBlob", [], ⟨none, none⟩⟩,
                       none, false⟩)])]).hierarchy).hierarchy =
      [("c1", [("a", ⟨⟨"a", 1, false, "BlockBlob", [], ⟨none, none⟩⟩,
                 some (osJoin (osJoin "d" "c1") "a"), false⟩),
               ("b", ⟨⟨"b", 2, false, "BlockBlob", [], ⟨none, none⟩⟩,
                 some (osJoin (osJoin "d" "c1") "b"), false⟩)])] :=
  c7_resume_processes_only_b
    (fun _ n => if n = "b" then DlOutcome.err PyExc.keyboardInterrupt else DlOutcome.ok)
    (fun _ _ => DlOutcome.ok) "d" "c1" "a" "b"
    ⟨"a", 1, false, "BlockBlob", [], ⟨none, none⟩⟩
    ⟨"b", 2, false, "BlockBlob", [], ⟨none, none⟩⟩
    PyExc.keyboardInterrupt
    (by decide) (by decide) (by decide) (by decide)

end CopyScript
